import Mathlib

/-!
Verification development for the manga-helper cross-platform identity-mapping
and metrics-caching engine.

The persistent store (src/utils/storage.ts) keeps three partitions backed by
JS objects: manual mappings, auto-discovered mappings with TTL, and a metrics
cache with TTL.  A JS object keyed by strings is modelled here as an ordered
association list (ObjMap).  Timestamps (Date.now products) are Nat
milliseconds, passed explicitly as a parameter named now.
-/

set_option autoImplicit false

namespace MangaHelper

/-- A JS object with string keys, modelled as an ordered association list.
Property insertion appends at the end; property update rewrites in place. -/
abbrev ObjMap (α : Type) : Type := List (String × α)

namespace ObjMap

variable {α : Type}

/-- Property read: first entry with the key, if any. -/
def lookup (k : String) : ObjMap α → Option α
  | [] => none
  | (k', v) :: m => if k' = k then some v else lookup k m

/-- Whether the key is present. -/
def hasKey (k : String) (m : ObjMap α) : Bool := (lookup k m).isSome

/-- Rewrite the value at every entry carrying the key, keeping order. -/
def replaceVal (k : String) (v : α) : ObjMap α → ObjMap α
  | [] => []
  | (k', v') :: m => (k', if k' = k then v else v') :: replaceVal k v m

/-- JS property write: update in place when present, append when absent. -/
def setKey (k : String) (v : α) (m : ObjMap α) : ObjMap α :=
  if hasKey k m then replaceVal k v m else m ++ [(k, v)]

/-- JS property removal. -/
def eraseKey (k : String) : ObjMap α → ObjMap α
  | [] => []
  | (k', v) :: m => if k' = k then eraseKey k m else (k', v) :: eraseKey k m

theorem lookup_replaceVal_self (k : String) (v : α) (m : ObjMap α) :
    lookup k (replaceVal k v m) = (lookup k m).map (fun _ => v) := by
  induction m with
  | nil => rfl
  | cons p m ih =>
    obtain ⟨k', v'⟩ := p
    by_cases h : k' = k <;> simp [replaceVal, lookup, h, ih]

theorem lookup_replaceVal_ne {k k' : String} (v : α) (m : ObjMap α) (h : k' ≠ k) :
    lookup k' (replaceVal k v m) = lookup k' m := by
  induction m with
  | nil => rfl
  | cons p m ih =>
    obtain ⟨k'', v'⟩ := p
    by_cases h2 : k'' = k
    · subst h2; simp [replaceVal, lookup, Ne.symm h, ih]
    · simp [replaceVal, lookup, h2, ih]

theorem lookup_eq_none_of_hasKey_eq_false {k : String} {m : ObjMap α}
    (h : hasKey k m = false) : lookup k m = none := by
  unfold hasKey at h
  cases hl : lookup k m with
  | none => rfl
  | some v => rw [hl] at h; simp at h

theorem replaceVal_of_lookup_none {k : String} (v : α) {m : ObjMap α}
    (h : lookup k m = none) : replaceVal k v m = m := by
  induction m with
  | nil => rfl
  | cons p m ih =>
    obtain ⟨k', v'⟩ := p
    by_cases h2 : k' = k
    · rw [lookup, if_pos h2] at h; exact absurd h (by simp)
    · rw [lookup, if_neg h2] at h
      simp [replaceVal, h2, ih h]

theorem lookup_append_right {k : String} {m1 : ObjMap α} (m2 : ObjMap α)
    (h : lookup k m1 = none) : lookup k (m1 ++ m2) = lookup k m2 := by
  induction m1 with
  | nil => rfl
  | cons p m ih =>
    obtain ⟨k', v'⟩ := p
    by_cases h2 : k' = k
    · rw [lookup, if_pos h2] at h; exact absurd h (by simp)
    · rw [lookup, if_neg h2] at h
      simp [lookup, h2, ih h]

@[simp] theorem lookup_setKey_self (k : String) (v : α) (m : ObjMap α) :
    lookup k (setKey k v m) = some v := by
  unfold setKey
  by_cases h : hasKey k m
  · rw [if_pos h, lookup_replaceVal_self]
    unfold hasKey at h
    cases hl : lookup k m with
    | none => rw [hl] at h; simp at h
    | some w => simp
  · rw [if_neg h, lookup_append_right _ (lookup_eq_none_of_hasKey_eq_false (by simpa using h))]
    simp [lookup]

theorem lookup_append_single_ne {k k' : String} (v : α) (m : ObjMap α) (h : k' ≠ k) :
    lookup k' (m ++ [(k, v)]) = lookup k' m := by
  induction m with
  | nil => simp [lookup, Ne.symm h]
  | cons p m ih =>
    obtain ⟨k'', v'⟩ := p
    by_cases h2 : k'' = k' <;> simp [lookup, h2, ih]

theorem setKey_eq_of_hasKey {k : String} (v : α) {m : ObjMap α} (h : hasKey k m = true) :
    setKey k v m = replaceVal k v m := by simp [setKey, h]

theorem setKey_eq_of_not_hasKey {k : String} (v : α) {m : ObjMap α} (h : hasKey k m = false) :
    setKey k v m = m ++ [(k, v)] := by simp [setKey, h]

@[simp] theorem lookup_setKey_ne {k k' : String} (v : α) (m : ObjMap α) (h : k' ≠ k) :
    lookup k' (setKey k v m) = lookup k' m := by
  cases hk : hasKey k m with
  | true => rw [setKey_eq_of_hasKey _ hk, lookup_replaceVal_ne _ _ h]
  | false => rw [setKey_eq_of_not_hasKey _ hk, lookup_append_single_ne _ _ h]

theorem replaceVal_replaceVal (k : String) (v : α) (m : ObjMap α) :
    replaceVal k v (replaceVal k v m) = replaceVal k v m := by
  induction m with
  | nil => rfl
  | cons p m ih =>
    obtain ⟨k', v'⟩ := p
    by_cases h : k' = k <;> simp [replaceVal, h, ih]

theorem replaceVal_append (k : String) (v : α) (m1 m2 : ObjMap α) :
    replaceVal k v (m1 ++ m2) = replaceVal k v m1 ++ replaceVal k v m2 := by
  induction m1 with
  | nil => rfl
  | cons p m ih => obtain ⟨k', v'⟩ := p; simp [replaceVal, ih]

theorem setKey_idem (k : String) (v : α) (m : ObjMap α) :
    setKey k v (setKey k v m) = setKey k v m := by
  have h1 : hasKey k (setKey k v m) = true := by
    simp [hasKey, lookup_setKey_self]
  rw [setKey_eq_of_hasKey _ h1]
  cases h : hasKey k m with
  | true => rw [setKey_eq_of_hasKey _ h, replaceVal_replaceVal]
  | false =>
    rw [setKey_eq_of_not_hasKey _ h, replaceVal_append,
      replaceVal_of_lookup_none _ (lookup_eq_none_of_hasKey_eq_false h)]
    simp [replaceVal]

@[simp] theorem lookup_eraseKey_self (k : String) (m : ObjMap α) :
    lookup k (eraseKey k m) = none := by
  induction m with
  | nil => rfl
  | cons p m ih =>
    obtain ⟨k', v'⟩ := p
    by_cases h : k' = k <;> simp [eraseKey, lookup, h, ih]

@[simp] theorem lookup_eraseKey_ne {k k' : String} (m : ObjMap α) (h : k' ≠ k) :
    lookup k' (eraseKey k m) = lookup k' m := by
  induction m with
  | nil => rfl
  | cons p m ih =>
    obtain ⟨k'', v'⟩ := p
    by_cases h2 : k'' = k
    · subst h2; simp [eraseKey, lookup, Ne.symm h, ih]
    · simp [eraseKey, lookup, h2, ih]

end ObjMap

/-- Stored mapping value from src/types: a target slug string, or the JS
literal false meaning "searched, nothing matched" (negative marker). -/
inductive MappingValue where
  | slug (s : String)
  | notFound
deriving DecidableEq, Repr

/-- Mapping between platforms for one work: targetPlatform to MappingValue. -/
abbrev PlatformMapping : Type := ObjMap MappingValue

/-- Auto-mapping entry with TTL expiry timestamp (src/types AutoMappingEntry). -/
structure AutoMappingEntry where
  value : MappingValue
  expires : Nat
deriving DecidableEq, Repr

/-- Manual partition backing object: platform to slug to targetPlatform to value.
The TS type AllMappings admits MappingValue leaves; manualMappings.set only ever
writes strings and manualMappings.get filters non-strings out. -/
abbrev AllMappings : Type := ObjMap (ObjMap (ObjMap MappingValue))

/-- Auto partition backing object: platform to slug to targetPlatform to entry. -/
abbrev AllAutoMappings : Type := ObjMap (ObjMap (ObjMap AutoMappingEntry))

/-- Cached metrics for a work on a target platform (src/types CachedPlatformData):
maximum available chapter, last chapter the user read, and TTL expiry. -/
structure CachedPlatformData where
  chapter : Int
  lastChapterRead : Int
  expires : Nat
deriving DecidableEq, Repr

/-- The data given to cache.set: CachedPlatformData without the expires field,
which set injects itself. -/
structure PlatformDataInput where
  chapter : Int
  lastChapterRead : Int
deriving DecidableEq, Repr

/-- Metrics cache backing object: targetPlatform to targetSlug to data. -/
abbrev AllCache : Type := ObjMap (ObjMap CachedPlatformData)

/-- Default TTL from src/utils/storage.ts: one hour in milliseconds. -/
def DEFAULT_TTL : Nat := 60 * 60 * 1000

namespace manualMappings

/-- manualMappings.get: nested property read; only string values count, a
non-string (negative marker) leaf reads as null. -/
def get (all : AllMappings) (platform slug targetPlatform : String) : Option String :=
  match (ObjMap.lookup platform all).bind (fun pm =>
      (ObjMap.lookup slug pm).bind (fun sm => ObjMap.lookup targetPlatform sm)) with
  | some (MappingValue.slug s) => some s
  | _ => none

/-- manualMappings.set: create missing parent objects, then write the leaf. -/
def set (all : AllMappings) (platform slug targetPlatform targetSlug : String) :
    AllMappings :=
  let pm := (ObjMap.lookup platform all).getD []
  let sm := (ObjMap.lookup slug pm).getD []
  ObjMap.setKey platform
    (ObjMap.setKey slug (ObjMap.setKey targetPlatform (MappingValue.slug targetSlug) sm) pm)
    all

/-- manualMappings.delete: remove the leaf when present, then recursively remove
parent objects that became empty. -/
def delete (all : AllMappings) (platform slug targetPlatform : String) : AllMappings :=
  match ObjMap.lookup platform all with
  | none => all
  | some pm =>
    match ObjMap.lookup slug pm with
    | none => all
    | some sm =>
      match ObjMap.lookup targetPlatform sm with
      | none => all
      | some _ =>
        let sm' := ObjMap.eraseKey targetPlatform sm
        let pm' := if sm'.isEmpty then ObjMap.eraseKey slug pm
                   else ObjMap.setKey slug sm' pm
        if pm'.isEmpty then ObjMap.eraseKey platform all
        else ObjMap.setKey platform pm' all

/-- manualMappings.getAllForSlug: every manual link recorded for one source work. -/
def getAllForSlug (all : AllMappings) (platform slug : String) : ObjMap MappingValue :=
  ((ObjMap.lookup platform all).bind (fun pm => ObjMap.lookup slug pm)).getD []

end manualMappings

namespace autoMappings

/-- Raw nested read of an auto entry, before any TTL logic. -/
def rawLookup (all : AllAutoMappings) (platform slug targetPlatform : String) :
    Option AutoMappingEntry :=
  (ObjMap.lookup platform all).bind (fun pm =>
    (ObjMap.lookup slug pm).bind (fun sm => ObjMap.lookup targetPlatform sm))

/-- autoMappings.get: lazy expiry; an entry with now strictly past expires is
reported absent but the call itself deletes nothing. -/
def get (all : AllAutoMappings) (now : Nat) (platform slug targetPlatform : String) :
    Option MappingValue :=
  match rawLookup all platform slug targetPlatform with
  | none => none
  | some entry => if now > entry.expires then none else some entry.value

/-- autoMappings.set: create missing parents and write the leaf with
expires at now plus ttl. -/
def set (all : AllAutoMappings) (now : Nat) (platform slug targetPlatform : String)
    (targetSlug : MappingValue) (ttl : Nat) : AllAutoMappings :=
  let pm := (ObjMap.lookup platform all).getD []
  let sm := (ObjMap.lookup slug pm).getD []
  ObjMap.setKey platform
    (ObjMap.setKey slug
      (ObjMap.setKey targetPlatform ⟨targetSlug, now + ttl⟩ sm) pm)
    all

/-- autoMappings.delete: remove the leaf when present, cleaning empty parents. -/
def delete (all : AllAutoMappings) (platform slug targetPlatform : String) :
    AllAutoMappings :=
  match ObjMap.lookup platform all with
  | none => all
  | some pm =>
    match ObjMap.lookup slug pm with
    | none => all
    | some sm =>
      match ObjMap.lookup targetPlatform sm with
      | none => all
      | some _ =>
        let sm' := ObjMap.eraseKey targetPlatform sm
        let pm' := if sm'.isEmpty then ObjMap.eraseKey slug pm
                   else ObjMap.setKey slug sm' pm
        if pm'.isEmpty then ObjMap.eraseKey platform all
        else ObjMap.setKey platform pm' all

/-- autoMappings.getAllForSlug: only currently valid (unexpired, strict
comparison expires greater than now) entries, with values extracted. -/
def getAllForSlug (all : AllAutoMappings) (now : Nat) (platform slug : String) :
    PlatformMapping :=
  (((ObjMap.lookup platform all).bind (fun pm => ObjMap.lookup slug pm)).getD []).filterMap
    (fun q => if q.2.expires > now then some (q.1, q.2.value) else none)

/-- Body of the innermost flushExpired loop: delete the target entries of one
slug object whose expires is strictly below now. -/
def flushLeaf (now : Nat) (tm : ObjMap AutoMappingEntry) : ObjMap AutoMappingEntry :=
  tm.filter (fun r => ! decide (r.2.expires < now))

/-- Body of the middle flushExpired loop: flush each slug object of one
platform object and prune slug objects that became empty. -/
def flushSlugs (now : Nat) (sm : ObjMap (ObjMap AutoMappingEntry)) :
    ObjMap (ObjMap AutoMappingEntry) :=
  (sm.map (fun qs => (qs.1, flushLeaf now qs.2))).filter (fun qs => ! qs.2.isEmpty)

/-- autoMappings.flushExpired: one sweep physically deleting every entry with
expires strictly below now, then pruning slug objects and platform objects
that became empty. -/
def flushExpired (all : AllAutoMappings) (now : Nat) : AllAutoMappings :=
  (all.map (fun ps => (ps.1, flushSlugs now ps.2))).filter (fun ps => ! ps.2.isEmpty)

end autoMappings

namespace cache

/-- Raw nested read of a cache entry, before any TTL logic. -/
def rawLookup (all : AllCache) (targetPlatform targetSlug : String) :
    Option CachedPlatformData :=
  (ObjMap.lookup targetPlatform all).bind (fun pm => ObjMap.lookup targetSlug pm)

/-- cache.get: lazy expiry, identical discipline to autoMappings.get; the
stored record (expires included) is returned unchanged when valid. -/
def get (all : AllCache) (now : Nat) (targetPlatform targetSlug : String) :
    Option CachedPlatformData :=
  match rawLookup all targetPlatform targetSlug with
  | none => none
  | some data => if now > data.expires then none else some data

/-- cache.set: spread the caller data and inject expires at now plus ttl.
No clamping of any field happens here. -/
def set (all : AllCache) (now : Nat) (targetPlatform targetSlug : String)
    (data : PlatformDataInput) (ttl : Nat) : AllCache :=
  let pm := (ObjMap.lookup targetPlatform all).getD []
  ObjMap.setKey targetPlatform
    (ObjMap.setKey targetSlug ⟨data.chapter, data.lastChapterRead, now + ttl⟩ pm)
    all

/-- cache.delete: remove the leaf when present, cleaning an empty platform object. -/
def delete (all : AllCache) (targetPlatform targetSlug : String) : AllCache :=
  match ObjMap.lookup targetPlatform all with
  | none => all
  | some pm =>
    match ObjMap.lookup targetSlug pm with
    | none => all
    | some _ =>
      let pm' := ObjMap.eraseKey targetSlug pm
      if pm'.isEmpty then ObjMap.eraseKey targetPlatform all
      else ObjMap.setKey targetPlatform pm' all

/-- Body of the inner cache.flushExpired loop: delete the entries of one
platform object whose expires is strictly below now. -/
def flushPlatform (now : Nat) (pm : ObjMap CachedPlatformData) :
    ObjMap CachedPlatformData :=
  pm.filter (fun r => ! decide (r.2.expires < now))

/-- cache.flushExpired: one sweep physically deleting entries with expires
strictly below now, pruning platform objects that became empty. -/
def flushExpired (all : AllCache) (now : Nat) : AllCache :=
  (all.map (fun ps => (ps.1, flushPlatform now ps.2))).filter
    (fun ps => ! ps.2.isEmpty)

end cache

/-- Where a resolved slug came from (src/types SlugSource). -/
inductive SlugSource where
  | manual
  | auto
  | none
deriving DecidableEq, Repr

/-- Result shape of getTargetSlug and getSlugWithSource. -/
structure ResolveResult where
  slug : Option MappingValue
  source : SlugSource
deriving DecidableEq, Repr

/-- getTargetSlug from src/utils/storage.ts: resolution priority
manual, then auto, then none; short-circuiting. -/
def getTargetSlug (manual : AllMappings) (auto : AllAutoMappings) (now : Nat)
    (fromPlatform slug toPlatform : String) : ResolveResult :=
  match manualMappings.get manual fromPlatform slug toPlatform with
  | some m => ⟨some (MappingValue.slug m), SlugSource.manual⟩
  | none =>
    match autoMappings.get auto now fromPlatform slug toPlatform with
    | some a => ⟨some a, SlugSource.auto⟩
    | none => ⟨none, SlugSource.none⟩

/-! Session store (src/stores/mappings.ts).  The zustand state is the only
thing the presentation layer reads; its actions also perform the persisted
writes.  Each action is modelled as a pure function from the session state
plus the relevant persisted partition to their updated values. -/

/-- In-memory session state of the mappings store. -/
structure MappingsState where
  currentPlatform : Option String
  currentSlug : Option String
  manualLinks : PlatformMapping
  autoLinks : PlatformMapping
  cachedResults : ObjMap (Option CachedPlatformData)
  loading : Bool
  loadingPlatforms : List String
deriving DecidableEq, Repr

namespace mappingsStore

/-- Initial store state, also the state after reset. -/
def initialState : MappingsState :=
  ⟨none, none, [], [], [], false, []⟩

/-- The JS guard used by every mutating action: currentPlatform or currentSlug
being null or the empty string (both falsy) aborts the action.  Returns the
context pair otherwise. -/
def guardCtx (st : MappingsState) : Option (String × String) :=
  match st.currentPlatform, st.currentSlug with
  | some p, some s => if p = "" || s = "" then none else some (p, s)
  | _, _ => none

/-- setContext (success path): record the context and hydrate manualLinks and
autoLinks from the persisted partitions, clearing cachedResults. -/
def setContext (st : MappingsState) (platform slug : String)
    (pm : AllMappings) (pa : AllAutoMappings) (now : Nat) : MappingsState :=
  { st with
    currentPlatform := some platform
    currentSlug := some slug
    manualLinks := manualMappings.getAllForSlug pm platform slug
    autoLinks := autoMappings.getAllForSlug pa now platform slug
    cachedResults := []
    loading := false }

/-- saveManualLink: persist to the manual partition and mirror the link in the
session, clearing the cached result slot for that platform. -/
def saveManualLink (st : MappingsState) (pm : AllMappings)
    (targetPlatform targetSlug : String) : MappingsState × AllMappings :=
  match guardCtx st with
  | none => (st, pm)
  | some (p, s) =>
    ({ st with
        manualLinks :=
          ObjMap.setKey targetPlatform (MappingValue.slug targetSlug) st.manualLinks
        cachedResults := ObjMap.setKey targetPlatform none st.cachedResults },
      manualMappings.set pm p s targetPlatform targetSlug)

/-- deleteManualLink: delete from the manual partition and from the session,
clearing the cached result slot for that platform. -/
def deleteManualLink (st : MappingsState) (pm : AllMappings)
    (targetPlatform : String) : MappingsState × AllMappings :=
  match guardCtx st with
  | none => (st, pm)
  | some (p, s) =>
    ({ st with
        manualLinks := ObjMap.eraseKey targetPlatform st.manualLinks
        cachedResults := ObjMap.setKey targetPlatform none st.cachedResults },
      manualMappings.delete pm p s targetPlatform)

/-- saveAutoMapping: persist to the auto partition (with the default TTL) and
mirror the value, which may be the negative marker, in the session. -/
def saveAutoMapping (st : MappingsState) (pa : AllAutoMappings) (now : Nat)
    (targetPlatform : String) (targetSlug : MappingValue) :
    MappingsState × AllAutoMappings :=
  match guardCtx st with
  | none => (st, pa)
  | some (p, s) =>
    ({ st with
        autoLinks := ObjMap.setKey targetPlatform targetSlug st.autoLinks },
      autoMappings.set pa now p s targetPlatform targetSlug DEFAULT_TTL)

/-- deleteAutoMapping: delete from the auto partition and from the session. -/
def deleteAutoMapping (st : MappingsState) (pa : AllAutoMappings)
    (targetPlatform : String) : MappingsState × AllAutoMappings :=
  match guardCtx st with
  | none => (st, pa)
  | some (p, s) =>
    ({ st with autoLinks := ObjMap.eraseKey targetPlatform st.autoLinks },
      autoMappings.delete pa p s targetPlatform)

/-- getSlugWithSource: session-level resolution with the same priority as
getTargetSlug; with no usable context it reports absent with source none. -/
def getSlugWithSource (st : MappingsState) (targetPlatform : String) : ResolveResult :=
  match guardCtx st with
  | none => ⟨none, SlugSource.none⟩
  | some _ =>
    match ObjMap.lookup targetPlatform st.manualLinks with
    | some (MappingValue.slug m) => ⟨some (MappingValue.slug m), SlugSource.manual⟩
    | _ =>
      match ObjMap.lookup targetPlatform st.autoLinks with
      | some a => ⟨some a, SlugSource.auto⟩
      | none => ⟨none, SlugSource.none⟩

end mappingsStore

/-! Discovery orchestration (MangaPage.loadPlatformData on mangalib.me).
Its branch on the already-known links decides whether the platform data is
loaded from the existing mapping, a discovery search runs, or nothing runs
because the platform is memoized as "no match". -/

/-- The decision loadPlatformData takes for one target platform. -/
inductive LoadAction where
  | useMapping (slug : String)
  | doSearch
  | noSearch
deriving DecidableEq, Repr

/-- The JS nullish coalescing of the manual link over the auto link. -/
def nullishOr (a b : Option MappingValue) : Option MappingValue :=
  match a with
  | some v => some v
  | none => b

/-- Branch structure of loadPlatformData: a truthy string mapping is used
directly; the negative marker short-circuits to no action at all; anything
else (absent, or falsy empty string) starts a search. -/
def loadPlatformAction (manualLinks autoLinks : PlatformMapping)
    (platformKey : String) : LoadAction :=
  match nullishOr (ObjMap.lookup platformKey manualLinks)
      (ObjMap.lookup platformKey autoLinks) with
  | some (MappingValue.slug s) =>
    if s = "" then LoadAction.doSearch else LoadAction.useMapping s
  | some MappingValue.notFound => LoadAction.noSearch
  | none => LoadAction.doSearch

/-! ReadManga adapter search (src/api/readmanga.ts).  The remote search
facility and the manga-page metrics fetch are oracles; an abort signal is a
Boolean function of logical time, where time counts completed awaited remote
operations.  The code reads the signal at exactly the points where it writes
a check, so the model exposes the window between a check and a later write. -/

/-- One remote search suggestion: displayed value, alternative names, link. -/
structure Suggestion where
  value : String
  names : List String
  link : String
deriving DecidableEq, Repr

/-- Removal of the first occurrence of a character, as the JS single-argument
String.replace with an empty replacement does. -/
def removeFirstChar (c : Char) : List Char → List Char
  | [] => []
  | x :: xs => if x = c then xs else x :: removeFirstChar c xs

/-- The slug extraction link.replace of one slash by nothing. -/
def stripFirstSlash (s : String) : String := String.mk (removeFirstChar '/' s.data)

/-- searchByTitle: one remote query; pick the first suggestion whose value or
names contain the queried title, and derive the slug from its link. -/
def searchByTitle (remote : String → Option (List Suggestion)) (title : String) :
    Option String :=
  match remote title with
  | none => none
  | some suggestions =>
    if suggestions.isEmpty then none
    else
      match suggestions.find? (fun s => (s.value :: s.names).contains title) with
      | some matched =>
        if matched.link = "" then none else some (stripFirstSlash matched.link)
      | none => none

/-- Metrics data an adapter derives for a matched work. -/
structure MangaData where
  chapter : Int
  lastChapterRead : Int
deriving DecidableEq, Repr

/-- A persisted-store write performed by a search run. -/
inductive StorageWrite where
  | autoPos (sourcePlatform sourceSlug targetPlatform slug : String)
  | autoNeg (sourcePlatform sourceSlug targetPlatform : String)
  | cachePut (targetPlatform slug : String) (data : MangaData)
deriving DecidableEq, Repr

/-- Outcome of one search run: the returned slug if any, the persisted-store
writes it performed, and the logical completion time. -/
structure SearchRun where
  result : Option String
  writes : List StorageWrite
  finishTime : Nat
deriving DecidableEq, Repr

/-- ReadMangaAPI.search body over the remaining titles.  The signal sig is
read where the code checks signal aborted: at the top of each loop
iteration, after searchByTitle found a slug, and before the final negative
write.  No check separates the metrics fetch from the positive write. -/
def readmangaSearchGo (cfgKey sourcePlatform sourceSlug : String)
    (remote : String → Option (List Suggestion))
    (mangaData : String → Option MangaData)
    (sig : Nat → Bool) : List String → Nat → SearchRun
  | [], t =>
    if sig t then ⟨none, [], t⟩
    else ⟨none, [StorageWrite.autoNeg sourcePlatform sourceSlug cfgKey], t⟩
  | title :: rest, t =>
    if sig t then ⟨none, [], t⟩
    else
      match searchByTitle remote title with
      | some slug =>
        if sig (t + 1) then ⟨none, [], t + 1⟩
        else
          match mangaData slug with
          | some d =>
            ⟨some slug,
              [StorageWrite.autoPos sourcePlatform sourceSlug cfgKey slug,
               StorageWrite.cachePut cfgKey slug d], t + 2⟩
          | none =>
            readmangaSearchGo cfgKey sourcePlatform sourceSlug remote mangaData sig
              rest (t + 2)
      | none =>
        readmangaSearchGo cfgKey sourcePlatform sourceSlug remote mangaData sig
          rest (t + 1)

/-- ReadMangaAPI.search: iterate the caller titles in order from time zero. -/
def readmangaSearch (cfgKey sourcePlatform sourceSlug : String)
    (remote : String → Option (List Suggestion))
    (mangaData : String → Option MangaData)
    (sig : Nat → Bool) (titles : List String) : SearchRun :=
  readmangaSearchGo cfgKey sourcePlatform sourceSlug remote mangaData sig titles 0

/-- Replay of the storage writes of a run against the persisted partitions,
exactly as saveAutoMapping and cacheResult of the base adapter perform them
(both with the default TTL). -/
def applyWrite (now : Nat) (stores : AllAutoMappings × AllCache) (w : StorageWrite) :
    AllAutoMappings × AllCache :=
  match w with
  | StorageWrite.autoPos p s t slug =>
    (autoMappings.set stores.1 now p s t (MappingValue.slug slug) DEFAULT_TTL, stores.2)
  | StorageWrite.autoNeg p s t =>
    (autoMappings.set stores.1 now p s t MappingValue.notFound DEFAULT_TTL, stores.2)
  | StorageWrite.cachePut t slug d =>
    (stores.1, cache.set stores.2 now t slug ⟨d.chapter, d.lastChapterRead⟩ DEFAULT_TTL)

/-- Replay of a whole write list in order. -/
def applyWrites (now : Nat) (stores : AllAutoMappings × AllCache)
    (ws : List StorageWrite) : AllAutoMappings × AllCache :=
  ws.foldl (applyWrite now) stores

/-! Shared retry primitive (BasePlatformAPI.fetch in src/api/base.ts).
Each attempt arms an abort timer with the per-call timeout and performs the
transport call; its outcome is an oracle of the attempt index.  A null
payload, an abort (timeout) error caught by the inner handler, and any other
exception rethrown to the per-iteration outer handler all lead to the same
backoff-then-retry path, so the loop can never propagate an exception. -/

/-- Default per-call timeout in milliseconds (DEFAULT_TIMEOUT). -/
def DEFAULT_TIMEOUT : Nat := 10000

/-- Default attempt count (DEFAULT_MAX_RETRIES). -/
def DEFAULT_MAX_RETRIES : Nat := 3

/-- Backoff cap in milliseconds (MAX_BACKOFF). -/
def MAX_BACKOFF : Nat := 10000

/-- Backoff before the next attempt: exponential, capped. -/
def backoffDelay (attempt : Nat) : Nat := min (1000 * 2 ^ attempt) MAX_BACKOFF

/-- Outcome of one transport call (bgFetch under an abort timer). -/
inductive FetchOutcome (T : Type) where
  | success (value : T)
  | nullResult
  | abortTimeout
  | exceptionThrown
deriving DecidableEq, Repr

/-- Trace of one retried fetch: final result, number of attempts made, the
backoff waits performed between attempts, and the timeout armed per attempt. -/
structure FetchRun (T : Type) where
  result : Option T
  attemptsMade : Nat
  waits : List Nat
  timeouts : List Nat
deriving DecidableEq, Repr

/-- Retry loop body from attempt index i with the given fuel (the loop runs
while i is below maxRetries, so fuel is maxRetries minus i). -/
def fetchGo {T : Type} (oracle : Nat → FetchOutcome T) (maxRetries timeout : Nat) :
    Nat → Nat → FetchRun T
  | i, 0 => ⟨none, i, [], []⟩
  | i, fuel + 1 =>
    match oracle i with
    | FetchOutcome.success v => ⟨some v, i + 1, [], [timeout]⟩
    | _ =>
      let ws := if i < maxRetries - 1 then [backoffDelay i] else []
      let rest := fetchGo oracle maxRetries timeout (i + 1) fuel
      ⟨rest.result, rest.attemptsMade, ws ++ rest.waits, timeout :: rest.timeouts⟩

/-- BasePlatformAPI.fetch: up to maxRetries attempts starting at index zero. -/
def fetchRetried {T : Type} (oracle : Nat → FetchOutcome T)
    (timeout maxRetries : Nat) : FetchRun T :=
  fetchGo oracle maxRetries timeout 0 maxRetries

/-! Senkuro adapter metrics derivation (src/api/senkuro.ts,
getMangaDataWithManga): the only place any consumed-units clamp exists. -/

/-- The record the Senkuro adapter builds from a remote manga response:
the reported bookmark is clamped down to the maximum chapter. -/
def senkuroMetricsFrom (maxChapter lastChapterRead : Int) : MangaData :=
  ⟨maxChapter, if lastChapterRead > maxChapter then maxChapter else lastChapterRead⟩

/-! Well-formedness of the backing objects: JS objects never hold two
properties with the same key, so each level of a partition has nodup keys. -/

/-- Keys of an object are pairwise distinct. -/
def ObjMap.NodupKeys {α : Type} (m : ObjMap α) : Prop := (m.map Prod.fst).Nodup

/-- Well-formed three-level auto partition. -/
def AutoWF (all : AllAutoMappings) : Prop :=
  ObjMap.NodupKeys all ∧
    ∀ q ∈ all, ObjMap.NodupKeys q.2 ∧ ∀ r ∈ q.2, ObjMap.NodupKeys r.2

/-- Well-formed two-level cache partition. -/
def CacheWF (all : AllCache) : Prop :=
  ObjMap.NodupKeys all ∧ ∀ q ∈ all, ObjMap.NodupKeys q.2

/-! Concrete oracles for the scenario runs used by the C2 and C7 records. -/

/-- Remote search oracle for the cancellation run: the single title matches a
suggestion linking to the slug m-slug. -/
def c2remote : String → Option (List Suggestion) :=
  fun q => if q = "title-one" then some [⟨"title-one", [], "/m-slug"⟩] else none

/-- Metrics oracle for the cancellation run: the matched work has data. -/
def c2mdata : String → Option MangaData :=
  fun s => if s = "m-slug" then some ⟨5, 2⟩ else none

/-- Abort signal for the cancellation run: fires during the second remote
operation (the metrics fetch), after the last abort check the code makes. -/
def c2sig : Nat → Bool := fun n => decide (2 ≤ n)

/-- The cancellation run itself. -/
def c2run : SearchRun :=
  readmangaSearch "readmanga" "mangalib" "slug-a" c2remote c2mdata c2sig ["title-one"]

/-- Remote search oracle for the title-order scenario: the query Foo returns
candidates none of which declares the title Foo; the second query returns the
candidate foo-b declaring the queried title. -/
def c7remote : String → Option (List Suggestion) :=
  fun q =>
    if q = "Foo" then some [⟨"Bar", ["Baz"], "/other"⟩]
    else if q = "フー" then some [⟨"Foo B", ["フー"], "/foo-b"⟩]
    else none

/-- Metrics oracle for the title-order scenario. -/
def c7mdata : String → Option MangaData :=
  fun s => if s = "foo-b" then some ⟨12, 3⟩ else none

/-- The title-order scenario run: source work (A, slugA), target platform B,
titles tried in order, no cancellation. -/
def c7run : SearchRun :=
  readmangaSearch "B" "A" "slugA" c7remote c7mdata (fun _ => false) ["Foo", "フー"]

/-! Theorems. -/

/-- Claim C1: for every source identity and target platform, an existing
Manual mapping (always a concrete slug string) is returned with tier manual
regardless of any Auto entry for the tuple, negative or not, fresh or not
(the Auto partition is universally quantified); otherwise an unexpired Auto
entry, slug or negative marker, is returned with tier auto; otherwise the
result is absent with tier none. -/
theorem C1_resolution_priority (manual : AllMappings) (auto : AllAutoMappings)
    (now : Nat) (p s t : String) :
    (∀ m, manualMappings.get manual p s t = some m →
      getTargetSlug manual auto now p s t
        = ⟨some (MappingValue.slug m), SlugSource.manual⟩)
    ∧ (manualMappings.get manual p s t = none →
      ∀ v e, autoMappings.rawLookup auto p s t = some ⟨v, e⟩ → now ≤ e →
        getTargetSlug manual auto now p s t = ⟨some v, SlugSource.auto⟩)
    ∧ (manualMappings.get manual p s t = none →
      autoMappings.get auto now p s t = none →
        getTargetSlug manual auto now p s t = ⟨none, SlugSource.none⟩) := by
  refine ⟨?_, ?_, ?_⟩
  · intro m hm
    unfold getTargetSlug
    rw [hm]
  · intro hm v e hr he
    unfold getTargetSlug
    rw [hm]
    unfold autoMappings.get
    rw [hr]
    simp [Nat.not_lt.mpr he]
  · intro hm ha
    unfold getTargetSlug
    rw [hm, ha]

/-- Concrete instance of C1: the Manual slug m wins over a conflicting Auto
entry that is both negative and long expired. -/
theorem C1_resolution_priority_witness :
    getTargetSlug [("A", [("x", [("B", MappingValue.slug "m")])])]
      [("A", [("x", [("B", ⟨MappingValue.notFound, 0⟩)])])] 999 "A" "x" "B"
      = ⟨some (MappingValue.slug "m"), SlugSource.manual⟩ :=
  (C1_resolution_priority [("A", [("x", [("B", MappingValue.slug "m")])])]
    [("A", [("x", [("B", ⟨MappingValue.notFound, 0⟩)])])] 999 "A" "x" "B").1 "m" rfl

/-- Writing the same manual leaf twice gives the same partition as once. -/
theorem manualSet_idem (all : AllMappings) (p s t v : String) :
    manualMappings.set (manualMappings.set all p s t v) p s t v
      = manualMappings.set all p s t v := by
  unfold manualMappings.set
  simp [ObjMap.lookup_setKey_self, ObjMap.setKey_idem]

/-- Claim C9: with a fixed context, calling saveManualLink twice with the same
target platform and slug leaves the persisted Manual partition in exactly the
state one call produces.  (With no usable context both calls are no-ops.) -/
theorem C9_saveManualLink_idempotent (st : MappingsState) (pm : AllMappings)
    (targetPlatform targetSlug : String) :
    (mappingsStore.saveManualLink
        (mappingsStore.saveManualLink st pm targetPlatform targetSlug).1
        (mappingsStore.saveManualLink st pm targetPlatform targetSlug).2
        targetPlatform targetSlug).2
      = (mappingsStore.saveManualLink st pm targetPlatform targetSlug).2 := by
  cases hg : mappingsStore.guardCtx st with
  | none => simp [mappingsStore.saveManualLink, hg]
  | some ctx =>
    obtain ⟨p, s⟩ := ctx
    have hg' : mappingsStore.guardCtx
        { st with
          manualLinks :=
            ObjMap.setKey targetPlatform (MappingValue.slug targetSlug) st.manualLinks
          cachedResults := ObjMap.setKey targetPlatform none st.cachedResults }
        = some (p, s) := hg
    simp [mappingsStore.saveManualLink, hg, hg', manualSet_idem]

/-- Claim C10: with currentPlatform or currentSlug null, every mutating store
entry point returns without touching the persisted partitions or the session
state, and getSlugWithSource reports absent with source none. -/
theorem C10_no_context_noop (st : MappingsState) (pm : AllMappings)
    (pa : AllAutoMappings) (now : Nat) (targetPlatform targetSlug : String)
    (v : MappingValue)
    (h : st.currentPlatform = none ∨ st.currentSlug = none) :
    mappingsStore.saveManualLink st pm targetPlatform targetSlug = (st, pm)
    ∧ mappingsStore.deleteManualLink st pm targetPlatform = (st, pm)
    ∧ mappingsStore.saveAutoMapping st pa now targetPlatform v = (st, pa)
    ∧ mappingsStore.deleteAutoMapping st pa targetPlatform = (st, pa)
    ∧ mappingsStore.getSlugWithSource st targetPlatform
        = ⟨none, SlugSource.none⟩ := by
  have hg : mappingsStore.guardCtx st = none := by
    unfold mappingsStore.guardCtx
    rcases h with h | h
    · rw [h]
    · rw [h]
      cases st.currentPlatform <;> rfl
  refine ⟨?_, ?_, ?_, ?_, ?_⟩
  · simp [mappingsStore.saveManualLink, hg]
  · simp [mappingsStore.deleteManualLink, hg]
  · simp [mappingsStore.saveAutoMapping, hg]
  · simp [mappingsStore.deleteAutoMapping, hg]
  · simp [mappingsStore.getSlugWithSource, hg]

/-- Concrete instance of C10: on the initial (reset) state every mutation is a
no-op and session resolution reports absent with source none. -/
theorem C10_no_context_noop_witness :
    mappingsStore.saveManualLink mappingsStore.initialState [] "B" "x"
      = (mappingsStore.initialState, [])
    ∧ mappingsStore.getSlugWithSource mappingsStore.initialState "B"
      = ⟨none, SlugSource.none⟩ := by
  have h := C10_no_context_noop mappingsStore.initialState [] [] 0 "B" "x"
    MappingValue.notFound (Or.inl rfl)
  exact ⟨h.1, h.2.2.2.2⟩

/-- Claim C8: writing a value and reading it back at the same key before the
entry expires returns a value structurally equal to the one written, ignoring
the expires field the write injects, for the Auto and the Metrics partitions. -/
theorem C8_set_get_roundtrip (autoAll : AllAutoMappings) (cacheAll : AllCache)
    (now1 now2 ttl : Nat) (p s t tp ts : String) (v : MappingValue)
    (d : PlatformDataInput) (httl : 0 < ttl) (hfresh : now2 ≤ now1 + ttl) :
    autoMappings.get (autoMappings.set autoAll now1 p s t v ttl) now2 p s t = some v
    ∧ (cache.get (cache.set cacheAll now1 tp ts d ttl) now2 tp ts).map
        (fun c => (⟨c.chapter, c.lastChapterRead⟩ : PlatformDataInput)) = some d := by
  constructor
  · unfold autoMappings.get autoMappings.rawLookup autoMappings.set
    simp [ObjMap.lookup_setKey_self, Nat.not_lt.mpr hfresh]
  · unfold cache.get cache.rawLookup cache.set
    simp [ObjMap.lookup_setKey_self, Nat.not_lt.mpr hfresh]

/-- Concrete instance of C8 at the expiry boundary now2 equal to now1 plus
ttl, where the entry still reads back. -/
theorem C8_set_get_roundtrip_witness :
    autoMappings.get (autoMappings.set [] 0 "A" "x" "B" (MappingValue.slug "y") 100)
      100 "A" "x" "B" = some (MappingValue.slug "y")
    ∧ (cache.get (cache.set [] 0 "B" "y" ⟨7, 3⟩ 100) 100 "B" "y").map
        (fun c => (⟨c.chapter, c.lastChapterRead⟩ : PlatformDataInput)) = some ⟨7, 3⟩ :=
  C8_set_get_roundtrip [] [] 0 100 100 "A" "x" "B" "B" "y" (MappingValue.slug "y")
    ⟨7, 3⟩ (by decide) (by decide)

/-- The claim C3 scenario evaluated on the code: cache.set persists
consumedUnits 15 over availableUnits 10 unchanged, and cache.get on the
unexpired entry reports consumedUnits 15, not 10 — the Metrics cache clamps
neither at write nor at read time. -/
theorem C3_counterexample :
    cache.set [] 0 "B" "foo-b" ⟨10, 15⟩ 100 = [("B", [("foo-b", ⟨10, 15, 100⟩)])]
    ∧ cache.get [("B", [("foo-b", ⟨10, 15, 100⟩)])] 0 "B" "foo-b"
        = some ⟨10, 15, 100⟩ := by
  constructor <;> rfl

/-- Claim C3 amended: the Metrics cache stores and reports consumedUnits
unchanged; the only clamp lives in the Senkuro adapter, which caps the
reported bookmark at the maximum chapter when deriving the record it later
writes to the cache. -/
theorem C3_clamp_location (cacheAll : AllCache) (now ttl : Nat)
    (tp ts : String) (d : PlatformDataInput) (cd : CachedPlatformData)
    (maxChapter lastRead : Int)
    (hraw : cache.rawLookup cacheAll tp ts = some cd)
    (hfresh : ¬ now > cd.expires) :
    cache.rawLookup (cache.set cacheAll now tp ts d ttl) tp ts
        = some ⟨d.chapter, d.lastChapterRead, now + ttl⟩
    ∧ cache.get cacheAll now tp ts = some cd
    ∧ (senkuroMetricsFrom maxChapter lastRead).chapter = maxChapter
    ∧ (senkuroMetricsFrom maxChapter lastRead).lastChapterRead ≤ maxChapter
    ∧ (lastRead ≤ maxChapter →
        (senkuroMetricsFrom maxChapter lastRead).lastChapterRead = lastRead) := by
  refine ⟨?_, ?_, rfl, ?_, ?_⟩
  · unfold cache.rawLookup cache.set
    simp [ObjMap.lookup_setKey_self]
  · unfold cache.get
    rw [hraw]
    simp [hfresh]
  · unfold senkuroMetricsFrom
    by_cases hgt : lastRead > maxChapter <;> simp [hgt] <;> omega
  · intro hle
    unfold senkuroMetricsFrom
    simp [Int.not_lt.mpr hle]

/-- Concrete instance of C3 amended: the scenario entry reads back with
consumed 15, while the Senkuro derivation at available 10, consumed 15 is
clamped to 10. -/
theorem C3_clamp_location_witness :
    cache.get [("B", [("foo-b", ⟨10, 15, 100⟩)])] 0 "B" "foo-b" = some ⟨10, 15, 100⟩
    ∧ (senkuroMetricsFrom 10 15).lastChapterRead ≤ 10 := by
  have h := C3_clamp_location [("B", [("foo-b", ⟨10, 15, 100⟩)])] 0 50 "B" "foo-b"
    ⟨1, 2⟩ ⟨10, 15, 100⟩ 10 15 rfl (by decide)
  exact ⟨h.2.1, h.2.2.2.1⟩

/-- Attempt-count bounds of the retry loop: from attempt index i with the
given fuel, between i (inclusive, strict when fuel is positive) and i plus
fuel attempts are made in total. -/
theorem fetchGo_bounds {T : Type} (oracle : Nat → FetchOutcome T)
    (maxRetries timeout : Nat) :
    ∀ fuel i, i ≤ (fetchGo oracle maxRetries timeout i fuel).attemptsMade
      ∧ (fetchGo oracle maxRetries timeout i fuel).attemptsMade ≤ i + fuel
      ∧ (0 < fuel → i < (fetchGo oracle maxRetries timeout i fuel).attemptsMade) := by
  intro fuel
  induction fuel with
  | zero => intro i; simp [fetchGo]
  | succ n ih =>
    intro i
    cases ho : oracle i
    case success v => simp [fetchGo, ho]
    all_goals
      have h2 := ih (i + 1)
      simp [fetchGo, ho]
      omega

/-- Exhaustion: when no attempt in range succeeds, the retried fetch returns
absent rather than raising. -/
theorem fetchGo_result_eq_none {T : Type} (oracle : Nat → FetchOutcome T)
    (maxRetries timeout : Nat) :
    ∀ fuel i, (∀ k v, i ≤ k → k < i + fuel → oracle k ≠ FetchOutcome.success v) →
      (fetchGo oracle maxRetries timeout i fuel).result = none := by
  intro fuel
  induction fuel with
  | zero => intro i _; simp [fetchGo]
  | succ n ih =>
    intro i h
    cases ho : oracle i
    case success v => exact absurd ho (h i v (le_refl i) (by omega))
    all_goals
      simp [fetchGo, ho, ih (i + 1) (fun k v hk1 hk2 => h k v (by omega) (by omega))]

/-- Completeness of success: a returned payload is the payload of some
attempt in range. -/
theorem fetchGo_result_eq_some {T : Type} (oracle : Nat → FetchOutcome T)
    (maxRetries timeout : Nat) :
    ∀ fuel i v, (fetchGo oracle maxRetries timeout i fuel).result = some v →
      ∃ k, i ≤ k ∧ k < i + fuel ∧ oracle k = FetchOutcome.success v := by
  intro fuel
  induction fuel with
  | zero => intro i v h; simp [fetchGo] at h
  | succ n ih =>
    intro i v h
    cases ho : oracle i
    case success w =>
      simp [fetchGo, ho] at h
      exact ⟨i, le_refl i, by omega, by rw [ho, h]⟩
    all_goals
      simp only [fetchGo, ho] at h
      obtain ⟨k, hk1, hk2, hk3⟩ := ih (i + 1) v h
      exact ⟨k, by omega, by omega, hk3⟩

/-- Waits between attempts: each non-final failed attempt i is followed by a
backoff of backoffDelay i, so the waits are exactly the backoff delays of the
attempt indices below the last attempt made. -/
theorem fetchGo_waits {T : Type} (oracle : Nat → FetchOutcome T)
    (maxRetries timeout : Nat) :
    ∀ fuel i, i + fuel = maxRetries →
      (fetchGo oracle maxRetries timeout i fuel).waits
        = (List.range' i
            ((fetchGo oracle maxRetries timeout i fuel).attemptsMade - 1 - i)).map
            backoffDelay := by
  intro fuel
  induction fuel with
  | zero => intro i _; simp [fetchGo]
  | succ n ih =>
    intro i h
    cases ho : oracle i
    case success v => simp [fetchGo, ho]
    all_goals
      by_cases hc : i < maxRetries - 1
      · have hn : 0 < n := by omega
        have hlt := (fetchGo_bounds oracle maxRetries timeout n (i + 1)).2.2 hn
        have hw := ih (i + 1) (by omega)
        simp only [fetchGo, ho]
        rw [if_pos hc, hw,
          show (fetchGo oracle maxRetries timeout (i + 1) n).attemptsMade - 1 - i
            = ((fetchGo oracle maxRetries timeout (i + 1) n).attemptsMade - 1 - (i + 1)) + 1
            from by omega,
          List.range'_succ]
        simp
      · have hn : n = 0 := by omega
        subst hn
        simp only [fetchGo, ho]
        rw [if_neg hc]
        simp [fetchGo]

/-- Every attempt is armed with the same per-call timeout. -/
theorem fetchGo_timeouts {T : Type} (oracle : Nat → FetchOutcome T)
    (maxRetries timeout : Nat) :
    ∀ fuel i, (fetchGo oracle maxRetries timeout i fuel).timeouts
      = List.replicate ((fetchGo oracle maxRetries timeout i fuel).attemptsMade - i)
          timeout := by
  intro fuel
  induction fuel with
  | zero => intro i; simp [fetchGo]
  | succ n ih =>
    intro i
    cases ho : oracle i
    case success v => simp [fetchGo, ho]
    all_goals
      have hb := (fetchGo_bounds oracle maxRetries timeout n (i + 1)).1
      simp only [fetchGo, ho]
      rw [ih (i + 1),
        show (fetchGo oracle maxRetries timeout (i + 1) n).attemptsMade - i
          = ((fetchGo oracle maxRetries timeout (i + 1) n).attemptsMade - (i + 1)) + 1
          from by omega,
        List.replicate_succ]

/-- Claim C4: the shared retry primitive makes at most maxAttempts attempts
(default 3), arms each attempt with the per-call timeout (default 10000 ms,
realized by aborting the in-flight request, here the abortTimeout outcome);
a timeout, a null payload and any other exception all lead to the next
attempt after waiting min of 1000 times 2 to the attempt and 10000 ms; a
payload is returned only when some attempt succeeded, and exhausting all
attempts returns absent — the call never propagates an error for any oracle
of outcomes. -/
theorem C4_fetch_retry_discipline {T : Type} (oracle : Nat → FetchOutcome T) :
    (DEFAULT_MAX_RETRIES = 3 ∧ DEFAULT_TIMEOUT = 10000)
    ∧ (∀ i, backoffDelay i = min (1000 * 2 ^ i) 10000)
    ∧ (∀ timeout maxRetries,
        (fetchRetried oracle timeout maxRetries).attemptsMade ≤ maxRetries)
    ∧ ((∀ k v, k < DEFAULT_MAX_RETRIES → oracle k ≠ FetchOutcome.success v) →
        (fetchRetried oracle DEFAULT_TIMEOUT DEFAULT_MAX_RETRIES).result = none)
    ∧ (∀ v, (fetchRetried oracle DEFAULT_TIMEOUT DEFAULT_MAX_RETRIES).result = some v →
        ∃ k, k < DEFAULT_MAX_RETRIES ∧ oracle k = FetchOutcome.success v)
    ∧ (fetchRetried oracle DEFAULT_TIMEOUT DEFAULT_MAX_RETRIES).waits
        = (List.range
            ((fetchRetried oracle DEFAULT_TIMEOUT DEFAULT_MAX_RETRIES).attemptsMade
              - 1)).map backoffDelay
    ∧ (fetchRetried oracle DEFAULT_TIMEOUT DEFAULT_MAX_RETRIES).timeouts
        = List.replicate
            (fetchRetried oracle DEFAULT_TIMEOUT DEFAULT_MAX_RETRIES).attemptsMade
            DEFAULT_TIMEOUT := by
  refine ⟨⟨rfl, rfl⟩, fun i => rfl, ?_, ?_, ?_, ?_, ?_⟩
  · intro timeout maxRetries
    have h := (fetchGo_bounds oracle maxRetries timeout maxRetries 0).2.1
    simpa [fetchRetried] using h
  · intro hno
    exact fetchGo_result_eq_none oracle DEFAULT_MAX_RETRIES DEFAULT_TIMEOUT
      DEFAULT_MAX_RETRIES 0 (fun k v h1 h2 => hno k v (by simpa using h2))
  · intro v hv
    obtain ⟨k, hk1, hk2, hk3⟩ := fetchGo_result_eq_some oracle DEFAULT_MAX_RETRIES
      DEFAULT_TIMEOUT DEFAULT_MAX_RETRIES 0 v hv
    exact ⟨k, by simpa using hk2, hk3⟩
  · have h := fetchGo_waits oracle DEFAULT_MAX_RETRIES DEFAULT_TIMEOUT
      DEFAULT_MAX_RETRIES 0 (by simp)
    rw [List.range_eq_range']
    simpa [fetchRetried] using h
  · have h := fetchGo_timeouts oracle DEFAULT_MAX_RETRIES DEFAULT_TIMEOUT
      DEFAULT_MAX_RETRIES 0
    simpa [fetchRetried] using h

/-- Concrete instance of C4: an oracle that always throws still yields absent
after the three attempts, with the two capped exponential backoffs between
them, and never an error. -/
theorem C4_fetch_retry_discipline_witness :
    (fetchRetried (fun _ => (FetchOutcome.exceptionThrown : FetchOutcome Nat))
      DEFAULT_TIMEOUT DEFAULT_MAX_RETRIES).result = none :=
  (C4_fetch_retry_discipline (fun _ => FetchOutcome.exceptionThrown)).2.2.2.1
    (fun k v _ h => FetchOutcome.noConfusion h)

/-- Claim C2 evaluated at the failing schedule: the abort signal c2sig is a
legitimate cancellation signal (monotone once fired), it is unfired at both
abort checks the adapter makes (times 0 and 1) and fires during the metrics
fetch, before the search completes at time 2 — yet the run persists the
positive Auto mapping for exactly the searched tuple (and the cache entry),
and a later resolution sees the poisoned mapping.  The adapter rechecks the
signal after the title query but not after the metrics fetch, so the write
happens after cancellation. -/
theorem C2_cancelled_search_still_writes :
    (∀ a b : Nat, a ≤ b → c2sig a = true → c2sig b = true)
    ∧ c2sig 0 = false ∧ c2sig 1 = false
    ∧ c2sig c2run.finishTime = true
    ∧ c2run.writes
        = [StorageWrite.autoPos "mangalib" "slug-a" "readmanga" "m-slug",
           StorageWrite.cachePut "readmanga" "m-slug" ⟨5, 2⟩]
    ∧ autoMappings.get (applyWrites 0 ([], []) c2run.writes).1 0
        "mangalib" "slug-a" "readmanga" = some (MappingValue.slug "m-slug") := by
  refine ⟨fun a b hab ha => ?_, rfl, rfl, ?_, ?_, ?_⟩
  · simp only [c2sig, decide_eq_true_eq] at ha ⊢
    omega
  · rfl
  · rfl
  · rfl

/-- Claim C7: with titles tried in order, the first title yields candidates
none of which declares the queried title, the second yields the candidate
foo-b declaring it; the run returns foo-b, persists exactly the positive Auto
mapping (A, slugA, B) to foo-b — not a negative one — plus the metrics cache
entry, and the persisted mapping resolves. -/
theorem C7_first_decisive_title_match :
    c7run.result = some "foo-b"
    ∧ c7run.writes
        = [StorageWrite.autoPos "A" "slugA" "B" "foo-b",
           StorageWrite.cachePut "B" "foo-b" ⟨12, 3⟩]
    ∧ autoMappings.get (applyWrites 0 ([], []) c7run.writes).1 0 "A" "slugA" "B"
        = some (MappingValue.slug "foo-b") := by
  refine ⟨?_, ?_, ?_⟩ <;> rfl

/-- A successful lookup means the pair is in the list. -/
theorem ObjMap.mem_of_lookup {α : Type} {k : String} {v : α} {m : ObjMap α}
    (h : ObjMap.lookup k m = some v) : (k, v) ∈ m := by
  induction m with
  | nil => simp [ObjMap.lookup] at h
  | cons q m ih =>
    obtain ⟨k', v'⟩ := q
    by_cases hk : k' = k
    · subst hk
      rw [ObjMap.lookup, if_pos rfl] at h
      injection h with h
      subst h
      exact List.mem_cons_self _ _
    · rw [ObjMap.lookup, if_neg hk] at h
      exact List.mem_cons_of_mem _ (ih h)

/-- Lookup misses when no entry carries the key. -/
theorem ObjMap.lookup_eq_none_of_forall {α : Type} (k : String) (m : ObjMap α)
    (h : ∀ q ∈ m, q.1 ≠ k) : ObjMap.lookup k m = none := by
  induction m with
  | nil => rfl
  | cons q m ih =>
    obtain ⟨k', v'⟩ := q
    rw [ObjMap.lookup, if_neg (h (k', v') (List.mem_cons_self _ _))]
    exact ih fun q hq => h q (List.mem_cons_of_mem _ hq)

/-- Lookup through a key-preserving value transformation. -/
theorem ObjMap.lookup_map_val {α β : Type} (g : α → β) (k : String) (m : ObjMap α) :
    ObjMap.lookup k (m.map (fun q => (q.1, g q.2))) = (ObjMap.lookup k m).map g := by
  induction m with
  | nil => rfl
  | cons q m ih =>
    obtain ⟨k', v'⟩ := q
    by_cases hk : k' = k <;> simp [ObjMap.lookup, hk, ih]

/-- Key nodupness survives a key-preserving value transformation. -/
theorem ObjMap.nodupKeys_map_val {α β : Type} (g : α → β) (m : ObjMap α)
    (h : ObjMap.NodupKeys m) : ObjMap.NodupKeys (m.map (fun q => (q.1, g q.2))) := by
  unfold ObjMap.NodupKeys at h ⊢
  simpa [List.map_map, Function.comp_def] using h

/-- Lookup through a filter, over an object with nodup keys: the unique entry
at the key survives exactly when the predicate keeps it. -/
theorem ObjMap.lookup_filter_of_nodup {α : Type} (pred : String × α → Bool)
    {k : String} {v : α} {m : ObjMap α} (hnd : ObjMap.NodupKeys m)
    (h : ObjMap.lookup k m = some v) :
    ObjMap.lookup k (m.filter pred) = if pred (k, v) then some v else none := by
  induction m with
  | nil => simp [ObjMap.lookup] at h
  | cons q m ih =>
    obtain ⟨k', v'⟩ := q
    have hnd2 : ObjMap.NodupKeys m := by
      unfold ObjMap.NodupKeys at hnd ⊢
      simp only [List.map_cons, List.nodup_cons] at hnd
      exact hnd.2
    have hnotin : k' ∉ m.map Prod.fst := by
      unfold ObjMap.NodupKeys at hnd
      simp only [List.map_cons, List.nodup_cons] at hnd
      exact hnd.1
    by_cases hk : k' = k
    · subst hk
      rw [ObjMap.lookup, if_pos rfl] at h
      injection h with h
      subst h
      by_cases hp : pred (k', v')
      · simp [List.filter_cons, hp, ObjMap.lookup]
      · rw [List.filter_cons, if_neg hp, if_neg hp]
        exact ObjMap.lookup_eq_none_of_forall _ _ fun q hq hq1 =>
          hnotin (hq1 ▸ List.mem_map_of_mem Prod.fst (List.mem_of_mem_filter hq))
    · rw [ObjMap.lookup, if_neg hk] at h
      by_cases hp : pred (k', v') <;>
        simp [List.filter_cons, hp, ObjMap.lookup, hk, ih hnd2 h]

/-- Hydration: an unexpired entry of the auto partition appears, with its
value, in getAllForSlug for its source work. -/
theorem lookup_filterMap_fresh (now : Nat) (pk : String)
    (sm : ObjMap AutoMappingEntry) (ent : AutoMappingEntry)
    (h : ObjMap.lookup pk sm = some ent) (hfresh : ent.expires > now) :
    ObjMap.lookup pk (sm.filterMap
        (fun q => if q.2.expires > now then some (q.1, q.2.value) else none))
      = some ent.value := by
  induction sm with
  | nil => simp [ObjMap.lookup] at h
  | cons q sm ih =>
    obtain ⟨k', e'⟩ := q
    by_cases hk : k' = pk
    · subst hk
      rw [ObjMap.lookup, if_pos rfl] at h
      injection h with h
      subst h
      simp [List.filterMap_cons, hfresh, ObjMap.lookup]
    · rw [ObjMap.lookup, if_neg hk] at h
      by_cases he : e'.expires > now <;>
        simp [List.filterMap_cons, he, ObjMap.lookup, hk, ih h]

/-- The getAllForSlug projection keeps an unexpired raw entry. -/
theorem lookup_autoGetAllForSlug (pa : AllAutoMappings) (now : Nat)
    (p s pk : String) (ent : AutoMappingEntry)
    (h : autoMappings.rawLookup pa p s pk = some ent)
    (hfresh : ent.expires > now) :
    ObjMap.lookup pk (autoMappings.getAllForSlug pa now p s) = some ent.value := by
  unfold autoMappings.rawLookup at h
  rw [Option.bind_eq_some] at h
  obtain ⟨pm, hp, h⟩ := h
  rw [Option.bind_eq_some] at h
  obtain ⟨sm, hs, h⟩ := h
  unfold autoMappings.getAllForSlug
  rw [hp]
  simp only [Option.some_bind, hs, Option.getD_some]
  exact lookup_filterMap_fresh now pk sm ent h hfresh

/-- Claim C6: once a negative Auto result is stored for a tuple and not yet
expired, a session hydrated from the partitions carries the negative marker,
and the resolution pass over that platform takes the no-action branch: no new
search invocation happens (assuming no manual link for the tuple, the setting
in which the negative Auto value is the resolution result). -/
theorem C6_negative_memoization (prev : MappingsState) (pm : AllMappings)
    (pa : AllAutoMappings) (now e : Nat) (p s pk : String)
    (hneg : autoMappings.rawLookup pa p s pk = some ⟨MappingValue.notFound, e⟩)
    (hfresh : e > now)
    (hman : ObjMap.lookup pk (manualMappings.getAllForSlug pm p s) = none) :
    ObjMap.lookup pk (mappingsStore.setContext prev p s pm pa now).autoLinks
      = some MappingValue.notFound
    ∧ loadPlatformAction (mappingsStore.setContext prev p s pm pa now).manualLinks
        (mappingsStore.setContext prev p s pm pa now).autoLinks pk
      = LoadAction.noSearch
    ∧ (∀ ml al : PlatformMapping, ObjMap.lookup pk ml = none →
        ObjMap.lookup pk al = some MappingValue.notFound →
        loadPlatformAction ml al pk = LoadAction.noSearch) := by
  have hauto :=
    lookup_autoGetAllForSlug pa now p s pk ⟨MappingValue.notFound, e⟩ hneg hfresh
  refine ⟨hauto, ?_, ?_⟩
  · unfold loadPlatformAction nullishOr
    simp [mappingsStore.setContext, hman, hauto]
  · intro ml al hml hal
    unfold loadPlatformAction nullishOr
    simp [hml, hal]

/-- Concrete instance of C6: a hydrated session with a fresh negative entry
for platform B takes the no-search branch. -/
theorem C6_negative_memoization_witness :
    loadPlatformAction
      (mappingsStore.setContext mappingsStore.initialState "A" "x" []
        [("A", [("x", [("B", ⟨MappingValue.notFound, 100⟩)])])] 5).manualLinks
      (mappingsStore.setContext mappingsStore.initialState "A" "x" []
        [("A", [("x", [("B", ⟨MappingValue.notFound, 100⟩)])])] 5).autoLinks "B"
      = LoadAction.noSearch :=
  (C6_negative_memoization mappingsStore.initialState []
    [("A", [("x", [("B", ⟨MappingValue.notFound, 100⟩)])])] 5 100 "A" "x" "B"
    rfl (by decide) rfl).2.1

/-- Physical deletion by the auto sweep: given a raw entry under nodup keys,
flushExpired removes it exactly when its expires is strictly below now, and
otherwise keeps it (with its containers) intact. -/
theorem autoFlush_rawLookup (pa : AllAutoMappings) (now : Nat)
    (p s pk : String) (ent : AutoMappingEntry) (hwf : AutoWF pa)
    (h : autoMappings.rawLookup pa p s pk = some ent) :
    autoMappings.rawLookup (autoMappings.flushExpired pa now) p s pk
      = if ent.expires < now then none else some ent := by
  unfold autoMappings.rawLookup at h
  rw [Option.bind_eq_some] at h
  obtain ⟨pm, hp, h⟩ := h
  rw [Option.bind_eq_some] at h
  obtain ⟨sm, hs, h⟩ := h
  obtain ⟨hnd, hinner⟩ := hwf
  obtain ⟨hnd2, hinner2⟩ := hinner (p, pm) (ObjMap.mem_of_lookup hp)
  have hnd3 := hinner2 (s, sm) (ObjMap.mem_of_lookup hs)
  have hlk3 : ObjMap.lookup pk (autoMappings.flushLeaf now sm)
      = if (! decide (ent.expires < now)) then some ent else none :=
    ObjMap.lookup_filter_of_nodup _ hnd3 h
  have hlk2 : ObjMap.lookup s (autoMappings.flushSlugs now pm)
      = if (! (autoMappings.flushLeaf now sm).isEmpty)
        then some (autoMappings.flushLeaf now sm) else none := by
    unfold autoMappings.flushSlugs
    refine ObjMap.lookup_filter_of_nodup _ (ObjMap.nodupKeys_map_val _ _ hnd2) ?_
    rw [ObjMap.lookup_map_val, hs]
    rfl
  have hlk1 : ObjMap.lookup p (autoMappings.flushExpired pa now)
      = if (! (autoMappings.flushSlugs now pm).isEmpty)
        then some (autoMappings.flushSlugs now pm) else none := by
    unfold autoMappings.flushExpired
    refine ObjMap.lookup_filter_of_nodup _ (ObjMap.nodupKeys_map_val _ _ hnd) ?_
    rw [ObjMap.lookup_map_val, hp]
    rfl
  unfold autoMappings.rawLookup
  by_cases hexp : ent.expires < now
  · rw [if_pos hexp, hlk1]
    by_cases h1 : (autoMappings.flushSlugs now pm).isEmpty
    · simp [h1]
    · rw [if_pos (by simp [h1])]
      simp only [Option.some_bind]
      rw [hlk2]
      by_cases h2 : (autoMappings.flushLeaf now sm).isEmpty
      · simp [h2]
      · rw [if_pos (by simp [h2])]
        simp only [Option.some_bind]
        rw [hlk3]
        simp [hexp]
  · rw [if_neg hexp]
    have hmem3 : (pk, ent) ∈ autoMappings.flushLeaf now sm :=
      List.mem_filter.mpr ⟨ObjMap.mem_of_lookup h, by simp [hexp]⟩
    have hne3 : (autoMappings.flushLeaf now sm).isEmpty = false := by
      cases hll : autoMappings.flushLeaf now sm
      · rw [hll] at hmem3; simp at hmem3
      · rfl
    have hmem2 : (s, autoMappings.flushLeaf now sm) ∈ autoMappings.flushSlugs now pm := by
      unfold autoMappings.flushSlugs
      refine List.mem_filter.mpr ⟨?_, by simp [hne3]⟩
      exact List.mem_map.mpr ⟨(s, sm), ObjMap.mem_of_lookup hs, rfl⟩
    have hne2 : (autoMappings.flushSlugs now pm).isEmpty = false := by
      cases hll : autoMappings.flushSlugs now pm
      · rw [hll] at hmem2; simp at hmem2
      · rfl
    rw [hlk1, if_pos (by simp [hne2])]
    simp only [Option.some_bind]
    rw [hlk2, if_pos (by simp [hne3])]
    simp only [Option.some_bind]
    rw [hlk3]
    simp [hexp]

/-- Physical deletion by the metrics sweep, two-level analog of the auto
partition case. -/
theorem cacheFlush_rawLookup (ca : AllCache) (now : Nat) (tp ts : String)
    (cd : CachedPlatformData) (hwf : CacheWF ca)
    (h : cache.rawLookup ca tp ts = some cd) :
    cache.rawLookup (cache.flushExpired ca now) tp ts
      = if cd.expires < now then none else some cd := by
  unfold cache.rawLookup at h
  rw [Option.bind_eq_some] at h
  obtain ⟨pm, hp, h⟩ := h
  obtain ⟨hnd, hinner⟩ := hwf
  have hnd2 := hinner (tp, pm) (ObjMap.mem_of_lookup hp)
  have hlk2 : ObjMap.lookup ts (cache.flushPlatform now pm)
      = if (! decide (cd.expires < now)) then some cd else none :=
    ObjMap.lookup_filter_of_nodup _ hnd2 h
  have hlk1 : ObjMap.lookup tp (cache.flushExpired ca now)
      = if (! (cache.flushPlatform now pm).isEmpty)
        then some (cache.flushPlatform now pm) else none := by
    unfold cache.flushExpired
    refine ObjMap.lookup_filter_of_nodup _ (ObjMap.nodupKeys_map_val _ _ hnd) ?_
    rw [ObjMap.lookup_map_val, hp]
    rfl
  unfold cache.rawLookup
  by_cases hexp : cd.expires < now
  · rw [if_pos hexp, hlk1]
    by_cases h1 : (cache.flushPlatform now pm).isEmpty
    · simp [h1]
    · rw [if_pos (by simp [h1])]
      simp only [Option.some_bind]
      rw [hlk2]
      simp [hexp]
  · rw [if_neg hexp]
    have hmem2 : (ts, cd) ∈ cache.flushPlatform now pm :=
      List.mem_filter.mpr ⟨ObjMap.mem_of_lookup h, by simp [hexp]⟩
    have hne2 : (cache.flushPlatform now pm).isEmpty = false := by
      cases hll : cache.flushPlatform now pm
      · rw [hll] at hmem2; simp at hmem2
      · rfl
    rw [hlk1, if_pos (by simp [hne2])]
    simp only [Option.some_bind]
    rw [hlk2]
    simp [hexp]

/-- The claim C5 boundary evaluated on the code: at now exactly equal to
expires (expires less than or equal to now) both partitions still return the
entry, because the code treats an entry as expired only when now is strictly
greater than expires. -/
theorem C5_counterexample :
    autoMappings.get [("p", [("s", [("t", ⟨MappingValue.slug "x", 50⟩)])])] 50
      "p" "s" "t" = some (MappingValue.slug "x")
    ∧ cache.get [("B", [("y", ⟨7, 3, 50⟩)])] 50 "B" "y" = some ⟨7, 3, 50⟩ := by
  constructor <;> rfl

/-- Claim C5 amended: for the Auto and Metrics partitions, get reports an
entry absent exactly when now is strictly greater than its expires (not when
they are equal), the call deletes nothing — the entry stays physically
present in the unchanged partition — and the next flushExpired pass is what
physically removes it, exactly when expires is strictly below now. -/
theorem C5_lazy_expiry (pa : AllAutoMappings) (ca : AllCache) (now : Nat)
    (p s t tp ts : String) (ent : AutoMappingEntry) (cd : CachedPlatformData)
    (hwa : AutoWF pa) (hwc : CacheWF ca)
    (ha : autoMappings.rawLookup pa p s t = some ent)
    (hc : cache.rawLookup ca tp ts = some cd) :
    (autoMappings.get pa now p s t = none ↔ now > ent.expires)
    ∧ (cache.get ca now tp ts = none ↔ now > cd.expires)
    ∧ autoMappings.rawLookup (autoMappings.flushExpired pa now) p s t
        = (if ent.expires < now then none else some ent)
    ∧ cache.rawLookup (cache.flushExpired ca now) tp ts
        = (if cd.expires < now then none else some cd) := by
  refine ⟨?_, ?_, autoFlush_rawLookup pa now p s t ent hwa ha,
    cacheFlush_rawLookup ca now tp ts cd hwc hc⟩
  · unfold autoMappings.get
    rw [ha]
    by_cases hexp : now > ent.expires <;> simp [hexp]
  · unfold cache.get
    rw [hc]
    by_cases hexp : now > cd.expires <;> simp [hexp]

/-- Concrete instance of C5 amended: an expired entry reads as absent while
still physically present, and the sweep removes it. -/
theorem C5_lazy_expiry_witness :
    (autoMappings.get [("p", [("s", [("t", ⟨MappingValue.slug "x", 10⟩)])])] 50
        "p" "s" "t" = none ↔ 50 > 10)
    ∧ autoMappings.rawLookup
        (autoMappings.flushExpired
          [("p", [("s", [("t", ⟨MappingValue.slug "x", 10⟩)])])] 50) "p" "s" "t"
      = (if (10 : Nat) < 50 then none else some ⟨MappingValue.slug "x", 10⟩) := by
  have h := C5_lazy_expiry [("p", [("s", [("t", ⟨MappingValue.slug "x", 10⟩)])])]
    [("B", [("y", ⟨7, 3, 10⟩)])] 50 "p" "s" "t" "B" "y" ⟨MappingValue.slug "x", 10⟩
    ⟨7, 3, 10⟩ (by simp [AutoWF, ObjMap.NodupKeys]) (by simp [CacheWF, ObjMap.NodupKeys])
    rfl rfl
  exact ⟨h.1, h.2.2.1⟩

end MangaHelper
